import Mathlib

/-!
Verification of the TUP2025 transcript-upload backend (`tu-backend/app.py`).

The backend is a single Flask handler that validates a multipart submission,
resolves or creates a per-student Drive folder, uploads each document slot
under a deterministic filename (deleting a same-named file first), and appends
one 22-cell row to a spreadsheet.

We shallow-embed the handler as explicit state passing over a `World` holding
the remote Drive contents (files and folders), the spreadsheet rows, a fresh-id
counter, the clock, and a schedule of faults: each remote call consumes one
schedule entry, and a `some msg` entry makes that call raise `msg`, mirroring
the Python `try/except` that turns any backend exception into a 500 response.
-/

namespace TUP

/-- An uploaded file as it arrives in the multipart request
(werkzeug `FileStorage`): original filename, opaque content, MIME type.
In werkzeug a `FileStorage` is truthy iff its filename is nonempty. -/
structure FileData where
  filename : String
  content : String
  mimetype : String
deriving DecidableEq, Repr

/-- One remote Drive object: a folder or a regular file. -/
structure DriveFile where
  id : String
  name : String
  parent : String
  isFolder : Bool
  trashed : Bool
  content : String
  mimetype : String
deriving DecidableEq, Repr

/-- The state of the two remote collaborators plus the fault schedule.
`faults` is consumed one entry per remote call; `some e` raises `e` there,
`none` (or an exhausted schedule) lets the call succeed. -/
structure World where
  files : List DriveFile
  sheetRows : List (List String)
  nextId : Nat
  now : String
  faults : List (Option String)
deriving DecidableEq, Repr

/-- `BASE_DRIVE_FOLDER_ID` from app.py. -/
def BASE_DRIVE_FOLDER_ID : String := "1uBtsAnQrwPMcb-BcYRfE5m_mNA7nTyyW"

/-- Python `dict.get(k)` over an association list (first binding wins). -/
def dictGet (d : List (String × String)) (k : String) : Option String :=
  match d.find? (fun p => p.1 == k) with
  | some p => some p.2
  | none => none

/-- Python `dict.get(k, v)` with a default. -/
def dictGetD (d : List (String × String)) (k : String) (v : String) : String :=
  (dictGet d k).getD v

/-- `files.get(k)` for the per-slot uploaded files. -/
def fileGet (fs : List (String × FileData)) (k : String) : Option FileData :=
  match fs.find? (fun p => p.1 == k) with
  | some p => some p.2
  | none => none

/-- Python `s.replace(a, b)` for single characters. -/
def pyReplace (s : String) (a b : Char) : String :=
  String.mk (s.data.map (fun c => if c = a then b else c))

/-- Python `repr` of a string made of ordinary characters: single quotes. -/
def pyReprStr (s : String) : String :=
  String.singleton (Char.ofNat 39) ++ s ++ String.singleton (Char.ofNat 39)

/-- Python `str` of a list of ordinary strings, e.g. `[x, y]` with each
element in single quotes, as interpolated into the 400 error message. -/
def pyReprList (xs : List String) : String :=
  "[" ++ String.intercalate ", " (xs.map pyReprStr) ++ "]"

/-- Index of the last occurrence of `c` in `cs` (auxiliary). -/
def lastIdxAux (cs : List Char) (c : Char) (i : Nat) (acc : Option Nat) : Option Nat :=
  match cs with
  | [] => acc
  | x :: xs => lastIdxAux xs c (i + 1) (if x = c then some i else acc)

/-- Index of the last occurrence of `c` in `s`, Python `s.rfind(c)`
(with `none` for -1). -/
def lastIdx (s : String) (c : Char) : Option Nat :=
  lastIdxAux s.data c 0 none

/-- The index where the basename starts: one past the last slash. -/
def sepStart (p : String) : Nat :=
  match lastIdx p (Char.ofNat 47) with
  | none => 0
  | some s => s + 1

/-- The extension part of Python `os.path.splitext(p)[1]` (posix rules):
the suffix from the last dot, provided that dot lies after the last slash
and is not part of a leading run of dots in the basename. -/
def splitextExt (p : String) : String :=
  match lastIdx p (Char.ofNat 46) with
  | none => ""
  | some d =>
    if d < sepStart p then ""
    else if (List.range' (sepStart p) (d - sepStart p)).any
        (fun i => p.data.getD i (Char.ofNat 46) ≠ Char.ofNat 46) then
      String.mk (p.data.drop d)
    else ""

/-- Python `"." in s`: the string contains a dot character. -/
def hasDot (s : String) : Bool :=
  s.data.contains (Char.ofNat 46)

/-- `make_folder_name` from app.py: join lastName, firstName, degreeLevel,
studentType with underscores, then replace spaces and slashes. -/
def make_folder_name (fields : List (String × String)) : String :=
  pyReplace
    (pyReplace
      (String.intercalate "_"
        [dictGetD fields "lastName" "Unknown",
         dictGetD fields "firstName" "",
         dictGetD fields "degreeLevel" "",
         dictGetD fields "studentType" ""])
      (Char.ofNat 32) (Char.ofNat 95))
    (Char.ofNat 47) (Char.ofNat 95)

/-- Consume one entry of the fault schedule: the fault raised by the next
remote call, if any. -/
def takeFault (w : World) : Option String × World :=
  match w.faults with
  | [] => (none, w)
  | f :: rest => (f, { w with faults := rest })

/-- The Drive query of `find_folder`: a folder with this exact name, directly
under the fixed root, not trashed. -/
def folderMatch (folder_name : String) (f : DriveFile) : Bool :=
  f.name == folder_name && f.isFolder && f.parent == BASE_DRIVE_FOLDER_ID && !f.trashed

/-- `find_folder` from app.py: list matching folders, return the first id
if any. The call may raise. -/
def find_folder (w : World) (folder_name : String) :
    Except (String × World) (Option String × World) :=
  match takeFault w with
  | (some e, w) => .error (e, w)
  | (none, w) =>
    match w.files.filter (folderMatch folder_name) with
    | [] => .ok (none, w)
    | f :: _ => .ok (some f.id, w)

/-- A fresh Drive object id. -/
def freshId (w : World) : String × World :=
  ("gid" ++ toString w.nextId, { w with nextId := w.nextId + 1 })

/-- `create_folder` from app.py: create a folder with this name under the
fixed root and return its id. The call may raise. -/
def create_folder (w : World) (folder_name : String) :
    Except (String × World) (String × World) :=
  match takeFault w with
  | (some e, w) => .error (e, w)
  | (none, w) =>
    match freshId w with
    | (fid, w) =>
      .ok (fid, { w with
        files := w.files ++ [⟨fid, folder_name, BASE_DRIVE_FOLDER_ID, true, false, "", ""⟩] })

/-- The Drive query of `find_file_in_folder`: this exact name, in this folder,
not trashed (note: no MIME-type restriction, matching the source query). -/
def childMatch (folder_id filename : String) (f : DriveFile) : Bool :=
  f.name == filename && f.parent == folder_id && !f.trashed

/-- `find_file_in_folder` from app.py: list matching children, return the
first id if any. The call may raise. -/
def find_file_in_folder (w : World) (folder_id filename : String) :
    Except (String × World) (Option String × World) :=
  match takeFault w with
  | (some e, w) => .error (e, w)
  | (none, w) =>
    match w.files.filter (childMatch folder_id filename) with
    | [] => .ok (none, w)
    | f :: _ => .ok (some f.id, w)

/-- `drive.files().delete(fileId=fid).execute()`: remove the object with this
id. The call may raise. -/
def deleteFile (w : World) (fid : String) : Except (String × World) (Unit × World) :=
  match takeFault w with
  | (some e, w) => .error (e, w)
  | (none, w) => .ok ((), { w with files := w.files.filter (fun f => f.id ≠ fid) })

/-- The `drive.files().create` upload step: create a regular file with this
name in this folder and return its id. The call may raise. -/
def createFile (w : World) (name parent content mimetype : String) :
    Except (String × World) (String × World) :=
  match takeFault w with
  | (some e, w) => .error (e, w)
  | (none, w) =>
    match freshId w with
    | (fid, w) =>
      .ok (fid, { w with files := w.files ++ [⟨fid, name, parent, false, false, content, mimetype⟩] })

/-- The public-link string returned for an uploaded file id. -/
def driveLink (fid : String) : String :=
  "https://drive.google.com/file/d/" ++ fid ++ "/view?usp=sharing"

/-- `upload_file_to_drive` from app.py: look the target name up in the folder,
delete the (first) hit if its id is truthy, then create the new file and
return its public link. -/
def upload_file_to_drive (w : World) (fs : FileData) (folder_id drive_filename : String) :
    Except (String × World) (String × World) :=
  match find_file_in_folder w folder_id drive_filename with
  | .error e => .error e
  | .ok (ofid, w) =>
    let del : Except (String × World) (Unit × World) :=
      if (ofid.getD "") ≠ "" then deleteFile w (ofid.getD "") else .ok ((), w)
    match del with
    | .error e => .error e
    | .ok (_, w) =>
      match createFile w drive_filename folder_id fs.content fs.mimetype with
      | .error e => .error e
      | .ok (fid, w) => .ok (driveLink fid, w)

/-- `get_drive_service` / `get_sheets_service`: credential loading and client
construction, modelled as a remote call that may raise. -/
def get_service (w : World) : Except (String × World) World :=
  match takeFault w with
  | (some e, w) => .error (e, w)
  | (none, w) => .ok w

/-- Lines 113-115 of app.py: find the folder; if the result is falsy
(absent or empty id), create it. -/
def resolve_folder (w : World) (folder_name : String) :
    Except (String × World) (String × World) :=
  match find_folder w folder_name with
  | .error e => .error e
  | .ok (ofid, w) =>
    if (ofid.getD "") ≠ "" then .ok (ofid.getD "", w)
    else create_folder w folder_name

/-- The `sheets.spreadsheets().values().append` call: append one row.
The call may raise. -/
def sheets_append (w : World) (row : List String) : Except (String × World) (Unit × World) :=
  match takeFault w with
  | (some e, w) => .error (e, w)
  | (none, w) => .ok ((), { w with sheetRows := w.sheetRows ++ [row] })

/-- The fixed required-field list of the handler. -/
def requiredFields : List String :=
  ["firstName", "lastName", "studentType", "degreeLevel", "gender",
   "birthDate", "personalEmail", "nationalCountry", "t1Country",
   "nationalID", "transcript1"]

/-- The five document-slot keys, in loop order. -/
def slotKeys : List String :=
  ["nationalID", "transcript1", "transcript2", "transcript3", "transcript4"]

/-- One inbound multipart request: form fields and per-slot files. -/
structure Request where
  form : List (String × String)
  files : List (String × FileData)
deriving DecidableEq, Repr

/-- Python truthiness of `fields.get(k)`: present with a nonempty value. -/
def fieldTruthy (r : Request) (k : String) : Bool :=
  match dictGet r.form k with
  | some s => s ≠ ""
  | none => false

/-- Python truthiness of `files.get(k)`: present with a nonempty original
filename (werkzeug `FileStorage.__bool__`). -/
def fileTruthy (r : Request) (k : String) : Bool :=
  match fileGet r.files k with
  | some f => f.filename ≠ ""
  | none => false

/-- Lines 104-106 of app.py: the required fields whose form value and file
slot are both falsy, with `"termsConditions"` appended when that field is
not literally `"true"`. -/
def missingList (r : Request) : List String :=
  let m := requiredFields.filter (fun k => !(fieldTruthy r k || fileTruthy r k))
  if dictGet r.form "termsConditions" = some "true" then m else m ++ ["termsConditions"]

/-- Lines 120-129 of app.py: the target Drive filename for slot `k`.
Prefer the truthy `<k>Filename` field; otherwise fall back to
`<folderName>-<k><ext>`; in either case append the original extension when
the chosen name contains no dot. -/
def choose_filename (form : List (String × String)) (folder_name k : String)
    (f : FileData) : String :=
  let raw := dictGetD form (k ++ "Filename") ""
  let dn := if raw = "" then folder_name ++ "-" ++ k ++ splitextExt f.filename else raw
  if hasDot dn then dn else dn ++ splitextExt f.filename

/-- The per-slot upload loop (lines 118-132): for each slot with a truthy
file, upload under the chosen name and record the link; otherwise record the
empty string. Links are accumulated in loop order. -/
def uploadSlots (r : Request) (folder_name folder_id : String) :
    List String → World → Except (String × World) (List (String × String) × World)
  | [], w => .ok ([], w)
  | k :: ks, w =>
    match fileGet r.files k with
    | some f =>
      if f.filename = "" then
        match uploadSlots r folder_name folder_id ks w with
        | .error e => .error e
        | .ok (links, w) => .ok ((k, "") :: links, w)
      else
        match upload_file_to_drive w f folder_id (choose_filename r.form folder_name k f) with
        | .error e => .error e
        | .ok (link, w) =>
          match uploadSlots r folder_name folder_id ks w with
          | .error e => .error e
          | .ok (links, w) => .ok ((k, link) :: links, w)
    | none =>
      match uploadSlots r folder_name folder_id ks w with
      | .error e => .error e
      | .ok (links, w) => .ok ((k, "") :: links, w)

/-- Lines 136-147 of app.py: the 22-cell spreadsheet row. -/
def mkRow (form : List (String × String)) (links : List (String × String))
    (now : String) : List String :=
  [dictGetD form "firstName" "", dictGetD form "middleName" "",
   dictGetD form "lastName" "", dictGetD form "additionalName" "",
   dictGetD form "studentType" "", dictGetD form "degreeLevel" "",
   dictGetD form "gender" "", dictGetD form "birthDate" "",
   dictGetD form "personalEmail" "", dictGetD form "notes" "",
   dictGetD links "nationalID" "", dictGetD form "nationalCountry" "",
   dictGetD links "transcript1" "", dictGetD form "t1Country" "",
   dictGetD links "transcript2" "", dictGetD form "t2Country" "",
   dictGetD links "transcript3" "", dictGetD form "t3Country" "",
   dictGetD links "transcript4" "", dictGetD form "t4Country" "",
   dictGetD form "termsConditions" "",
   now]

/-- The JSON body of a response: success with links, or an error message. -/
inductive JBody where
  | successLinks (links : List (String × String))
  | errMsg (msg : String)
deriving DecidableEq, Repr

/-- `handle_submit` from app.py: validate, resolve the folder, upload each
slot, append the sheet row; any raised backend error becomes a 500 response
carrying the raw message, with the state as it was at the raise. -/
def handle_submit (r : Request) (w : World) : (JBody × Nat) × World :=
  if missingList r = [] then
    match get_service w with
    | .error (e, w) => ((JBody.errMsg e, 500), w)
    | .ok w =>
      match resolve_folder w (make_folder_name r.form) with
      | .error (e, w) => ((JBody.errMsg e, 500), w)
      | .ok (folder_id, w) =>
        match uploadSlots r (make_folder_name r.form) folder_id slotKeys w with
        | .error (e, w) => ((JBody.errMsg e, 500), w)
        | .ok (links, w) =>
          match get_service w with
          | .error (e, w) => ((JBody.errMsg e, 500), w)
          | .ok w =>
            match sheets_append w (mkRow r.form links w.now) with
            | .error (e, w) => ((JBody.errMsg e, 500), w)
            | .ok (_, w) => ((JBody.successLinks links, 200), w)
  else
    ((JBody.errMsg ("Missing required fields: " ++ pyReprList (missingList r)), 400), w)

/-- Number of non-trashed children of `folder_id` named `filename`
(the objects the `find_file_in_folder` query matches). -/
def countChildren (w : World) (folder_id filename : String) : Nat :=
  (w.files.filter (childMatch folder_id filename)).length

/-- Normalization of one identity field: spaces and slashes become
underscores. -/
def normField (s : String) : String :=
  pyReplace (pyReplace s (Char.ofNat 32) (Char.ofNat 95)) (Char.ofNat 47) (Char.ofNat 95)

/-- Normalization of the four-tuple (lastName, firstName, degreeLevel,
studentType), componentwise. -/
def normTuple (t : String × String × String × String) : String × String × String × String :=
  (normField t.1, normField t.2.1, normField t.2.2.1, normField t.2.2.2)

/-- A world with empty Drive contents, empty sheet and no scheduled faults. -/
def emptyWorld : World :=
  ⟨[], [], 0, "2025-01-01T00:00:00", []⟩

/-- A fully valid sample submission: all required fields, terms accepted,
files in the nationalID and transcript1 slots. -/
def sampleRequest : Request :=
  ⟨[("firstName", "Denise"), ("lastName", "Nelson"), ("studentType", "MSOHQ"),
    ("degreeLevel", "MBA"), ("gender", "F"), ("birthDate", "2000-01-01"),
    ("personalEmail", "d@x.com"), ("nationalCountry", "US"), ("t1Country", "US"),
    ("termsConditions", "true")],
   [("nationalID", ⟨"id.pdf", "cID", "application/pdf"⟩),
    ("transcript1", ⟨"t1.pdf", "cT1", "application/pdf"⟩)]⟩

/-- A world whose destination folder `F` (named with the sample folder key)
already holds two distinct files both bearing the nationalID slot's target
filename — contents the handler itself never produces, but legal prior
state. -/
def dupWorld : World :=
  ⟨[⟨"F", "Nelson_Denise_MBA_MSOHQ", BASE_DRIVE_FOLDER_ID, true, false, "", ""⟩,
    ⟨"fa", "Nelson_Denise_MBA_MSOHQ-nationalID.pdf", "F", false, false, "c1", "m"⟩,
    ⟨"fb", "Nelson_Denise_MBA_MSOHQ-nationalID.pdf", "F", false, false, "c2", "m"⟩],
   [], 0, "T", []⟩

/-- A fault schedule that lets the drive service build, the folder lookup and
the folder creation succeed, then raises `boom` on the next remote call. -/
def boomWorld : World :=
  ⟨[], [], 0, "T", [none, none, none, some "boom"]⟩

/-! ### Basic lemmas -/

theorem dictGet_cons (a b : String) (l : List (String × String)) (k : String) :
    dictGet ((a, b) :: l) k = if a == k then some b else dictGet l k := by
  cases h : a == k <;> simp [dictGet, List.find?_cons, h]

theorem missingList_nil_terms (r : Request) (h : missingList r = []) :
    dictGet r.form "termsConditions" = some "true" := by
  by_cases ht : dictGet r.form "termsConditions" = some "true"
  · exact ht
  · exfalso
    simp [missingList, ht] at h

theorem lastIdxAux_spec (c : Char) :
    ∀ (cs : List Char) (i : Nat) (acc : Option Nat) (d : Nat),
      lastIdxAux cs c i acc = some d →
      acc = some d ∨ ∃ j, j < cs.length ∧ cs.getD j c = c ∧ d = i + j := by
  intro cs
  induction cs with
  | nil =>
    intro i acc d h
    exact Or.inl h
  | cons x xs ih =>
    intro i acc d h
    have h' := ih (i + 1) (if x = c then some i else acc) d h
    rcases h' with hacc | ⟨j, hj, hc, hd⟩
    · by_cases hx : x = c
      · rw [if_pos hx] at hacc
        refine Or.inr ⟨0, by simp, ?_, ?_⟩
        · simpa [List.getD_cons_zero] using hx
        · simpa using (Option.some.inj hacc).symm
      · rw [if_neg hx] at hacc
        exact Or.inl hacc
    · refine Or.inr ⟨j + 1, by simpa using hj, ?_, ?_⟩
      · simpa [List.getD_cons_succ] using hc
      · omega

theorem lastIdx_spec (s : String) (c : Char) (d : Nat) (h : lastIdx s c = some d) :
    d < s.data.length ∧ s.data.getD d c = c := by
  rcases lastIdxAux_spec c s.data 0 none d h with hacc | ⟨j, hj, hc, hd⟩
  · exact absurd hacc (by simp)
  · subst hd
    simp only [Nat.zero_add]
    exact ⟨hj, hc⟩

theorem splitextExt_empty_or_hasDot (p : String) :
    splitextExt p = "" ∨ hasDot (splitextExt p) = true := by
  rcases hd : lastIdx p (Char.ofNat 46) with _ | d
  · simp [splitextExt, hd]
  · obtain ⟨hlen, hget⟩ := lastIdx_spec p _ d hd
    simp only [splitextExt, hd]
    split
    · exact Or.inl rfl
    · split
      · refine Or.inr ?_
        have hdrop : p.data.drop d = p.data[d] :: p.data.drop (d + 1) :=
          List.drop_eq_getElem_cons hlen
        have hdot : p.data[d] = Char.ofNat 46 := by
          have hg := hget
          rwa [List.getD_eq_getElem _ _ hlen] at hg
        simp [hasDot, hdrop, hdot, List.contains_cons]
      · exact Or.inl rfl

theorem hasDot_append (a b : String) :
    hasDot (a ++ b) = (hasDot a || hasDot b) := by
  simp [hasDot, String.data_append, List.contains]

theorem takeFault_nil {w : World} (h : w.faults = []) : takeFault w = (none, w) := by
  unfold takeFault
  rw [h]

theorem get_service_nil {w : World} (h : w.faults = []) : get_service w = .ok w := by
  unfold get_service
  rw [takeFault_nil h]

theorem find_folder_nil {w : World} (h : w.faults = []) (name : String) :
    find_folder w name =
      match w.files.filter (folderMatch name) with
      | [] => .ok (none, w)
      | f :: _ => .ok (some f.id, w) := by
  unfold find_folder
  rw [takeFault_nil h]

theorem create_folder_nil {w : World} (h : w.faults = []) (name : String) :
    create_folder w name =
      .ok ("gid" ++ toString w.nextId,
        { w with
          files := w.files ++
            [⟨"gid" ++ toString w.nextId, name, BASE_DRIVE_FOLDER_ID, true, false, "", ""⟩],
          nextId := w.nextId + 1 }) := by
  unfold create_folder freshId
  rw [takeFault_nil h]

theorem find_file_in_folder_nil {w : World} (h : w.faults = []) (fid name : String) :
    find_file_in_folder w fid name =
      match w.files.filter (childMatch fid name) with
      | [] => .ok (none, w)
      | f :: _ => .ok (some f.id, w) := by
  unfold find_file_in_folder
  rw [takeFault_nil h]

theorem deleteFile_nil {w : World} (h : w.faults = []) (fid : String) :
    deleteFile w fid = .ok ((), { w with files := w.files.filter (fun f => f.id ≠ fid) }) := by
  unfold deleteFile
  rw [takeFault_nil h]

theorem createFile_nil {w : World} (h : w.faults = []) (name parent content mimetype : String) :
    createFile w name parent content mimetype =
      .ok ("gid" ++ toString w.nextId,
        { w with
          files := w.files ++
            [⟨"gid" ++ toString w.nextId, name, parent, false, false, content, mimetype⟩],
          nextId := w.nextId + 1 }) := by
  unfold createFile freshId
  rw [takeFault_nil h]

theorem sheets_append_nil {w : World} (h : w.faults = []) (row : List String) :
    sheets_append w row = .ok ((), { w with sheetRows := w.sheetRows ++ [row] }) := by
  unfold sheets_append
  rw [takeFault_nil h]

theorem mem_missingList_iff (r : Request) (k : String) :
    k ∈ missingList r ↔
      ((k ∈ requiredFields ∧ (fieldTruthy r k || fileTruthy r k) = false) ∨
       (k = "termsConditions" ∧ dictGet r.form "termsConditions" ≠ some "true")) := by
  unfold missingList
  by_cases ht : dictGet r.form "termsConditions" = some "true"
  · rw [if_pos ht]
    simp only [List.mem_filter]
    constructor
    · rintro ⟨hk, hp⟩
      exact Or.inl ⟨hk, by simpa using hp⟩
    · rintro (⟨hk, hp⟩ | ⟨hk, hne⟩)
      · exact ⟨hk, by simpa using hp⟩
      · exact absurd ht hne
  · rw [if_neg ht]
    simp only [List.mem_append, List.mem_filter, List.mem_singleton]
    constructor
    · rintro (⟨hk, hp⟩ | hk)
      · exact Or.inl ⟨hk, by simpa using hp⟩
      · exact Or.inr ⟨hk, ht⟩
    · rintro (⟨hk, hp⟩ | ⟨hk, _⟩)
      · exact Or.inl ⟨hk, by simpa using hp⟩
      · exact Or.inr hk

/-! ### C1: validation fails fast -/

/-- C1: whenever some required field is present neither as a form field nor
as a file slot, or termsConditions is not literally "true", the handler
returns status 400 with an error message listing exactly the fields failing
validation, and performs no folder, file or sheet operation: the world is
returned unchanged. -/
theorem C1_validation_fails_fast :
    ∀ (r : Request) (w : World),
      ((∃ k, k ∈ requiredFields ∧ dictGet r.form k = none ∧ fileGet r.files k = none) ∨
        dictGet r.form "termsConditions" ≠ some "true") →
      handle_submit r w =
        ((JBody.errMsg ("Missing required fields: " ++ pyReprList (missingList r)), 400), w) ∧
      (∀ k, k ∈ missingList r ↔
        ((k ∈ requiredFields ∧ (fieldTruthy r k || fileTruthy r k) = false) ∨
         (k = "termsConditions" ∧ dictGet r.form "termsConditions" ≠ some "true"))) := by
  intro r w h
  have hne : missingList r ≠ [] := by
    rcases h with ⟨k, hk, hform, hfile⟩ | ht
    · refine List.ne_nil_of_mem ((mem_missingList_iff r k).mpr (Or.inl ⟨hk, ?_⟩))
      simp [fieldTruthy, fileTruthy, hform, hfile]
    · exact List.ne_nil_of_mem ((mem_missingList_iff r _).mpr (Or.inr ⟨rfl, ht⟩))
  refine ⟨?_, mem_missingList_iff r⟩
  simp [handle_submit, hne]

/-- C1 witness: the empty submission is rejected with status 400 and an
untouched world. -/
theorem C1_validation_fails_fast_witness :
    handle_submit ⟨[], []⟩ emptyWorld =
      ((JBody.errMsg ("Missing required fields: " ++ pyReprList (missingList ⟨[], []⟩)), 400),
        emptyWorld) :=
  (C1_validation_fails_fast ⟨[], []⟩ emptyWorld (Or.inr (by decide))).1

/-! ### C2: upload replaces rather than duplicates -/

/-- C2: the claim fails for arbitrary prior folder contents: when two files
with the nationalID slot's target name already sit in the destination
folder, the upload deletes only the first lookup hit, so the request
completes successfully yet two files with that name remain at completion. -/
theorem C2_counterexample :
    (handle_submit sampleRequest dupWorld).1.2 = 200 ∧
    countChildren (handle_submit sampleRequest dupWorld).2 "F"
      "Nelson_Denise_MBA_MSOHQ-nationalID.pdf" = 2 := by
  exact ⟨rfl, rfl⟩

/-- C2 (amended): when the folder holds at most one (non-trashed) file with
the target name beforehand — the invariant the handler itself maintains —
and Drive ids are nonempty, a successful upload leaves exactly one file
with that name in the folder: the old one is deleted, the new one created. -/
theorem C2_upload_replaces :
    ∀ (w : World) (fs : FileData) (folder_id drive_filename : String),
      w.faults = [] →
      (∀ f ∈ w.files, f.id ≠ "") →
      countChildren w folder_id drive_filename ≤ 1 →
      ∃ link w',
        upload_file_to_drive w fs folder_id drive_filename = .ok (link, w') ∧
        countChildren w' folder_id drive_filename = 1 := by
  intro w fs fid name hf hids hcount
  unfold upload_file_to_drive
  rw [find_file_in_folder_nil hf]
  cases hfil : w.files.filter (childMatch fid name) with
  | nil =>
    simp only [Option.getD_none, ne_eq, not_true_eq_false, if_false,
      createFile, freshId, takeFault, hf]
    refine ⟨_, _, rfl, ?_⟩
    simp [countChildren, List.filter_append, hfil, childMatch]
  | cons f rest =>
    have hrest : rest = [] := by
      have hlen : (f :: rest).length ≤ 1 := by
        rw [← hfil]
        exact hcount
      simpa using hlen
    subst hrest
    have hfmem : f ∈ w.files ∧ childMatch fid name f = true := by
      refine List.mem_filter.mp ?_
      rw [hfil]
      simp
    have hid : f.id ≠ "" := hids f hfmem.1
    simp only [Option.getD_some, ne_eq, hid, not_false_eq_true, if_true,
      deleteFile, createFile, freshId, takeFault, hf]
    refine ⟨_, _, rfl, ?_⟩
    have hnil : (w.files.filter (fun x => x.id ≠ f.id)).filter (childMatch fid name) = [] := by
      rw [List.eq_nil_iff_forall_not_mem]
      intro x hx
      have hx1 := List.mem_filter.mp hx
      have hx2 := List.mem_filter.mp hx1.1
      have hxf : x ∈ w.files.filter (childMatch fid name) :=
        List.mem_filter.mpr ⟨hx2.1, hx1.2⟩
      rw [hfil] at hxf
      have hxeq : x = f := by simpa using hxf
      have : x.id ≠ f.id := by simpa using hx2.2
      exact this (by rw [hxeq])
    simp only [countChildren, List.filter_append, List.length_append]
    simp [childMatch]
    intro a ha hn hp ht
    have hmem : a ∈ w.files.filter (childMatch fid name) :=
      List.mem_filter.mpr ⟨ha, by simp [childMatch, hn, hp, ht]⟩
    rw [hfil] at hmem
    have : a = f := by simpa using hmem
    rw [this]

/-- C2 witness: uploading into an empty world yields exactly one file with
the target name in the destination folder. -/
theorem C2_upload_replaces_witness :
    ∃ link w',
      upload_file_to_drive emptyWorld ⟨"id.pdf", "c", "m"⟩ "F" "n.pdf" = .ok (link, w') ∧
      countChildren w' "F" "n.pdf" = 1 :=
  C2_upload_replaces emptyWorld ⟨"id.pdf", "c", "m"⟩ "F" "n.pdf" rfl
    (by simp [emptyWorld]) (by decide)

/-! ### C3: folder key derivation -/

/-- C3: the claim's injectivity-up-to-normalization fails: two four-tuples
that differ even after space/slash normalization (an underscore inside
`lastName` versus inside `firstName`) produce the same folder key. -/
theorem C3_counterexample :
    make_folder_name
        [("lastName", "a_b"), ("firstName", "c"), ("degreeLevel", "d"), ("studentType", "e")] =
      make_folder_name
        [("lastName", "a"), ("firstName", "b_c"), ("degreeLevel", "d"), ("studentType", "e")] ∧
    normTuple ("a_b", "c", "d", "e") ≠ normTuple ("a", "b_c", "d", "e") := by
  constructor
  · rfl
  · decide

/-- C3 (amended): the folder key joins lastName, firstName, degreeLevel,
studentType in that order with underscores and replaces every space and
slash with an underscore; it is deterministic (a function of the four
fields only); the example maps to `Nelson_Denise_MBA_MSOHQ`.  It is NOT
injective over the four-tuple up to whitespace/slash normalization. -/
theorem C3_folder_key :
    (∀ form, make_folder_name form =
      normField (String.intercalate "_"
        [dictGetD form "lastName" "Unknown", dictGetD form "firstName" "",
         dictGetD form "degreeLevel" "", dictGetD form "studentType" ""])) ∧
    (∀ f g, dictGet f "lastName" = dictGet g "lastName" →
      dictGet f "firstName" = dictGet g "firstName" →
      dictGet f "degreeLevel" = dictGet g "degreeLevel" →
      dictGet f "studentType" = dictGet g "studentType" →
      make_folder_name f = make_folder_name g) ∧
    make_folder_name
        [("lastName", "Nelson"), ("firstName", "Denise"),
         ("degreeLevel", "MBA"), ("studentType", "MSOHQ")] =
      "Nelson_Denise_MBA_MSOHQ" := by
  refine ⟨fun form => rfl, ?_, by rfl⟩
  intro f g h1 h2 h3 h4
  unfold make_folder_name dictGetD
  rw [h1, h2, h3, h4]

/-- C3 witness: the determinism conjunct applied to two concrete field
dictionaries that bind the four identity keys identically. -/
theorem C3_folder_key_witness :
    make_folder_name
        [("lastName", "Nelson"), ("firstName", "Denise"),
         ("degreeLevel", "MBA"), ("studentType", "MSOHQ")] =
      make_folder_name
        [("firstName", "Denise"), ("lastName", "Nelson"),
         ("degreeLevel", "MBA"), ("studentType", "MSOHQ"), ("notes", "x")] :=
  C3_folder_key.2.1 _ _ rfl rfl rfl rfl

/-! ### C5: target filename selection -/

/-- C5: the claim fails when the `<slot>Filename` field is present but
empty: the code then falls back to the synthesized name instead of using
the (extension-completed) supplied value. -/
theorem C5_counterexample :
    dictGet [("nationalIDFilename", "")] "nationalIDFilename" = some "" ∧
    choose_filename [("nationalIDFilename", "")] "K" "nationalID"
        ⟨"scan.pdf", "c", "m"⟩ = "K-nationalID.pdf" ∧
    ("K-nationalID.pdf" : String) ≠ "" ++ ".pdf" := by
  refine ⟨rfl, rfl, by decide⟩

/-- C5 (amended): the target filename is the caller-supplied
`<slot>Filename` field when that field is present AND nonempty (with the
original extension appended when the chosen name has no dot); when the
field is absent or empty, the name is `<folderKey>-<slot><originalExt>`. -/
theorem C5_filename_choice :
    ∀ (form : List (String × String)) (folder k : String) (f : FileData),
      (∀ v, dictGet form (k ++ "Filename") = some v → v ≠ "" →
        choose_filename form folder k f =
          (if hasDot v then v else v ++ splitextExt f.filename)) ∧
      (dictGet form (k ++ "Filename") = none ∨
          dictGet form (k ++ "Filename") = some "" →
        choose_filename form folder k f =
          folder ++ "-" ++ k ++ splitextExt f.filename) := by
  intro form folder k f
  constructor
  · intro v hv hne
    unfold choose_filename
    simp only [dictGetD, hv, Option.getD_some]
    rw [if_neg hne]
  · intro hcase
    have hraw : dictGetD form (k ++ "Filename") "" = "" := by
      rcases hcase with h | h <;> simp [dictGetD, h]
    unfold choose_filename
    simp only [hraw, if_pos rfl]
    by_cases hb : hasDot (folder ++ "-" ++ k ++ splitextExt f.filename) = true
    · simp [hb]
    · have hext : splitextExt f.filename = "" := by
        rcases splitextExt_empty_or_hasDot f.filename with h0 | h1
        · exact h0
        · exfalso
          apply hb
          rw [hasDot_append, h1]
          simp
      simp [hb, hext]

/-- C5 witness: the amended theorem applied at a concrete request with no
filename override: the fallback name is synthesized from folder key, slot
and original extension. -/
theorem C5_filename_choice_witness :
    choose_filename [] "K" "nationalID" ⟨"scan.pdf", "c", "m"⟩ =
      "K" ++ "-" ++ "nationalID" ++ splitextExt "scan.pdf" :=
  (C5_filename_choice [] "K" "nationalID" ⟨"scan.pdf", "c", "m"⟩).2 (Or.inl rfl)

theorem upload_file_to_drive_nil :
    ∀ (w : World) (fs : FileData) (fid name : String), w.faults = [] →
      ∃ link w', upload_file_to_drive w fs fid name = .ok (link, w') ∧
        w'.faults = [] ∧ w'.sheetRows = w.sheetRows ∧ w'.now = w.now := by
  intro w fs fid name hf
  unfold upload_file_to_drive
  rw [find_file_in_folder_nil hf]
  cases hfil : w.files.filter (childMatch fid name) with
  | nil =>
    simp only [Option.getD_none, ne_eq, not_true_eq_false, if_false,
      createFile, freshId, takeFault, hf]
    exact ⟨_, _, rfl, rfl, rfl, rfl⟩
  | cons f rest =>
    by_cases hid : f.id = ""
    · simp only [Option.getD_some, hid]
      rw [if_neg (by simp)]
      simp only [createFile, freshId, takeFault, hf]
      exact ⟨_, _, rfl, rfl, rfl, rfl⟩
    · simp only [Option.getD_some, ne_eq, hid, not_false_eq_true, if_true,
        deleteFile, createFile, freshId, takeFault, hf]
      exact ⟨_, _, rfl, rfl, rfl, rfl⟩

theorem uploadSlots_nil :
    ∀ (ks : List String) (r : Request) (fn fid : String) (w : World), w.faults = [] →
      ∃ links w', uploadSlots r fn fid ks w = .ok (links, w') ∧
        w'.faults = [] ∧ w'.sheetRows = w.sheetRows ∧ w'.now = w.now ∧
        links.map Prod.fst = ks ∧
        (∀ k, k ∈ ks → ∃ v, dictGet links k = some v ∧ (fileTruthy r k = false → v = "")) := by
  intro ks
  induction ks with
  | nil =>
    intro r fn fid w hf
    exact ⟨[], w, rfl, hf, rfl, rfl, rfl, by simp⟩
  | cons k ks ih =>
    intro r fn fid w hf
    cases hfg : fileGet r.files k with
    | none =>
      obtain ⟨links, w', heq, hf', hsheet, hnow, hmap, hget⟩ := ih r fn fid w hf
      refine ⟨(k, "") :: links, w', ?_, hf', hsheet, hnow, by simp [hmap], ?_⟩
      · simp only [uploadSlots, hfg, heq]
      · intro k' hk'
        by_cases hkk : k = k'
        · subst hkk
          exact ⟨"", by rw [dictGet_cons]; simp, fun _ => rfl⟩
        · have hk's : k' ∈ ks := by
            rcases List.mem_cons.mp hk' with h | h
            · exact absurd h.symm hkk
            · exact h
          obtain ⟨v, hv, himp⟩ := hget k' hk's
          refine ⟨v, ?_, himp⟩
          rw [dictGet_cons]
          simp only [hv]
          rw [if_neg (by simpa using hkk)]
    | some f =>
      by_cases hfn : f.filename = ""
      · obtain ⟨links, w', heq, hf', hsheet, hnow, hmap, hget⟩ := ih r fn fid w hf
        refine ⟨(k, "") :: links, w', ?_, hf', hsheet, hnow, by simp [hmap], ?_⟩
        · simp only [uploadSlots, hfg, if_pos hfn, heq]
        · intro k' hk'
          by_cases hkk : k = k'
          · subst hkk
            exact ⟨"", by rw [dictGet_cons]; simp, fun _ => rfl⟩
          · have hk's : k' ∈ ks := by
              rcases List.mem_cons.mp hk' with h | h
              · exact absurd h.symm hkk
              · exact h
            obtain ⟨v, hv, himp⟩ := hget k' hk's
            refine ⟨v, ?_, himp⟩
            rw [dictGet_cons]
            simp only [hv]
            rw [if_neg (by simpa using hkk)]
      · obtain ⟨link, w₁, hup, hf1, hsheet1, hnow1⟩ :=
          upload_file_to_drive_nil w f fid (choose_filename r.form fn k f) hf
        obtain ⟨links, w', heq, hf', hsheet, hnow, hmap, hget⟩ := ih r fn fid w₁ hf1
        refine ⟨(k, link) :: links, w', ?_, hf', by rw [hsheet, hsheet1],
          by rw [hnow, hnow1], by simp [hmap], ?_⟩
        · simp only [uploadSlots, hfg, if_neg hfn, hup, heq]
        · intro k' hk'
          by_cases hkk : k = k'
          · subst hkk
            refine ⟨link, by rw [dictGet_cons]; simp, ?_⟩
            intro hft
            exfalso
            simp [fileTruthy, hfg, hfn] at hft
          · have hk's : k' ∈ ks := by
              rcases List.mem_cons.mp hk' with h | h
              · exact absurd h.symm hkk
              · exact h
            obtain ⟨v, hv, himp⟩ := hget k' hk's
            refine ⟨v, ?_, himp⟩
            rw [dictGet_cons]
            simp only [hv]
            rw [if_neg (by simpa using hkk)]

theorem resolve_folder_nil :
    ∀ (w : World) (name : String), w.faults = [] →
      ∃ fid w₁, resolve_folder w name = .ok (fid, w₁) ∧
        w₁.faults = [] ∧ w₁.sheetRows = w.sheetRows ∧ w₁.now = w.now := by
  intro w name hf
  unfold resolve_folder
  rw [find_folder_nil hf]
  cases hfil : w.files.filter (folderMatch name) with
  | nil =>
    simp only [Option.getD_none, ne_eq, not_true_eq_false, if_false,
      create_folder, freshId, takeFault, hf]
    exact ⟨_, _, rfl, rfl, rfl, rfl⟩
  | cons g rest =>
    by_cases hgid : g.id = ""
    · simp only [Option.getD_some, hgid]
      rw [if_neg (by simp)]
      simp only [create_folder, freshId, takeFault, hf]
      exact ⟨_, _, rfl, rfl, rfl, rfl⟩
    · simp only [Option.getD_some, ne_eq, hgid, not_false_eq_true, if_true]
      exact ⟨_, _, rfl, hf, rfl, rfl⟩

theorem handle_submit_ok :
    ∀ (r : Request) (w : World), w.faults = [] → missingList r = [] →
      ∃ links w', handle_submit r w = ((JBody.successLinks links, 200), w') ∧
        w'.sheetRows = w.sheetRows ++ [mkRow r.form links w.now] ∧
        links.map Prod.fst = slotKeys ∧
        (∀ k, k ∈ slotKeys → ∃ v, dictGet links k = some v ∧
          (fileTruthy r k = false → v = "")) := by
  intro r w hf hm
  obtain ⟨fid, w₁, hres, hf1, hs1, hn1⟩ := resolve_folder_nil w (make_folder_name r.form) hf
  obtain ⟨links, w₂, hup, hf2, hs2, hn2, hmap, hget⟩ :=
    uploadSlots_nil slotKeys r (make_folder_name r.form) fid w₁ hf1
  unfold handle_submit
  rw [if_pos hm]
  simp only [get_service_nil hf, hres, hup, get_service_nil hf2, sheets_append_nil hf2]
  refine ⟨links, _, rfl, ?_, hmap, hget⟩
  show w₂.sheetRows ++ [mkRow r.form links w₂.now] = w.sheetRows ++ [mkRow r.form links w.now]
  rw [hs2, hs1, hn2, hn1]

/-! ### C4: idempotent folder resolution -/

theorem gid_ne_empty (n : Nat) : ("gid" ++ toString n : String) ≠ "" := by
  intro h
  have hlen := congrArg String.length h
  rw [String.length_append] at hlen
  have h3 : ("gid" : String).length = 3 := rfl
  have h0 : ("" : String).length = 0 := rfl
  rw [h3, h0] at hlen
  omega

/-- C4: folder resolution is an idempotent lookup-then-create: with a
non-trashed folder named with the folder key directly under the root the
first match is reused and nothing is created; otherwise exactly one new
folder is created; and a second sequential resolution for the same identity
fields returns the same folder id and creates nothing. -/
theorem C4_folder_resolution :
    ∀ (w : World) (form : List (String × String)),
      w.faults = [] →
      (∀ f ∈ w.files, f.id ≠ "") →
      ∃ fid w₁ w₂,
        resolve_folder w (make_folder_name form) = .ok (fid, w₁) ∧
        (w.files.filter (folderMatch (make_folder_name form)) ≠ [] →
          w₁ = w ∧
          (w.files.filter (folderMatch (make_folder_name form))).head?.map DriveFile.id =
            some fid) ∧
        (w.files.filter (folderMatch (make_folder_name form)) = [] →
          w₁.files = w.files ++
            [⟨"gid" ++ toString w.nextId, make_folder_name form, BASE_DRIVE_FOLDER_ID,
              true, false, "", ""⟩]) ∧
        resolve_folder w₁ (make_folder_name form) = .ok (fid, w₂) ∧
        w₂ = w₁ := by
  intro w form hf hids
  generalize make_folder_name form = name
  unfold resolve_folder
  rw [find_folder_nil hf]
  cases hfil : w.files.filter (folderMatch name) with
  | cons g rest =>
    have hg : g ∈ w.files ∧ folderMatch name g = true := by
      refine List.mem_filter.mp ?_
      rw [hfil]
      simp
    have hgid : g.id ≠ "" := hids g hg.1
    refine ⟨g.id, w, w, ?_, ?_, ?_, ?_, rfl⟩
    · simp only [Option.getD_some, ne_eq, hgid, not_false_eq_true, if_true]
    · intro _
      exact ⟨rfl, rfl⟩
    · intro hc
      simp at hc
    · rw [find_folder_nil hf, hfil]
      simp only [Option.getD_some, ne_eq, hgid, not_false_eq_true, if_true]
  | nil =>
    refine ⟨"gid" ++ toString w.nextId,
      { w with
        files := w.files ++
          [⟨"gid" ++ toString w.nextId, name, BASE_DRIVE_FOLDER_ID, true, false, "", ""⟩],
        nextId := w.nextId + 1 }, _, ?_, ?_, ?_, ?_, rfl⟩
    · simp only [Option.getD_none, ne_eq, not_true_eq_false, if_false, create_folder_nil hf]
    · intro hc
      exact absurd rfl hc
    · intro _
      rfl
    · have hf1 : ({ w with
          files := w.files ++
            [⟨"gid" ++ toString w.nextId, name, BASE_DRIVE_FOLDER_ID, true, false, "", ""⟩],
          nextId := w.nextId + 1 } : World).faults = [] := hf
      rw [find_folder_nil hf1]
      simp only [List.filter_append, hfil, List.nil_append]
      have hne := gid_ne_empty w.nextId
      simp [folderMatch, hne]

/-- C4 witness: two sequential resolutions starting from an empty Drive:
the first creates the folder, the second finds it, with the same id. -/
theorem C4_folder_resolution_witness :
    ∃ fid w₁ w₂,
      resolve_folder emptyWorld (make_folder_name sampleRequest.form) = .ok (fid, w₁) ∧
      (emptyWorld.files.filter (folderMatch (make_folder_name sampleRequest.form)) ≠ [] →
        w₁ = emptyWorld ∧
        (emptyWorld.files.filter
            (folderMatch (make_folder_name sampleRequest.form))).head?.map DriveFile.id =
          some fid) ∧
      (emptyWorld.files.filter (folderMatch (make_folder_name sampleRequest.form)) = [] →
        w₁.files = emptyWorld.files ++
          [⟨"gid" ++ toString emptyWorld.nextId, make_folder_name sampleRequest.form,
            BASE_DRIVE_FOLDER_ID, true, false, "", ""⟩]) ∧
      resolve_folder w₁ (make_folder_name sampleRequest.form) = .ok (fid, w₂) ∧
      w₂ = w₁ :=
  C4_folder_resolution emptyWorld sampleRequest.form rfl (by simp [emptyWorld])

/-! ### C6: the 22-cell sheet row -/

/-- C6: every successful submission appends exactly one row to the sheet;
the row has exactly 22 cells in the fixed order (identity fields, link and
country cells interleaved, termsConditions, timestamp), and every missing
optional field serializes as the empty string. -/
theorem C6_sheet_row :
    ∀ (r : Request) (w : World), w.faults = [] → missingList r = [] →
      ∃ links w', handle_submit r w = ((JBody.successLinks links, 200), w') ∧
        w'.sheetRows = w.sheetRows ++ [mkRow r.form links w.now] ∧
        mkRow r.form links w.now =
          [dictGetD r.form "firstName" "", dictGetD r.form "middleName" "",
           dictGetD r.form "lastName" "", dictGetD r.form "additionalName" "",
           dictGetD r.form "studentType" "", dictGetD r.form "degreeLevel" "",
           dictGetD r.form "gender" "", dictGetD r.form "birthDate" "",
           dictGetD r.form "personalEmail" "", dictGetD r.form "notes" "",
           dictGetD links "nationalID" "", dictGetD r.form "nationalCountry" "",
           dictGetD links "transcript1" "", dictGetD r.form "t1Country" "",
           dictGetD links "transcript2" "", dictGetD r.form "t2Country" "",
           dictGetD links "transcript3" "", dictGetD r.form "t3Country" "",
           dictGetD links "transcript4" "", dictGetD r.form "t4Country" "",
           dictGetD r.form "termsConditions" "", w.now] ∧
        (mkRow r.form links w.now).length = 22 ∧
        (∀ k, dictGet r.form k = none → dictGetD r.form k "" = "") := by
  intro r w hf hm
  obtain ⟨links, w', heq, hrows, hmap, hget⟩ := handle_submit_ok r w hf hm
  exact ⟨links, w', heq, hrows, rfl, rfl, fun k hk => by simp [dictGetD, hk]⟩

/-- C6 witness: the sample submission appends its single 22-cell row. -/
theorem C6_sheet_row_witness :
    ∃ links w',
      handle_submit sampleRequest emptyWorld = ((JBody.successLinks links, 200), w') ∧
      w'.sheetRows = emptyWorld.sheetRows ++ [mkRow sampleRequest.form links emptyWorld.now] ∧
      mkRow sampleRequest.form links emptyWorld.now =
        [dictGetD sampleRequest.form "firstName" "", dictGetD sampleRequest.form "middleName" "",
         dictGetD sampleRequest.form "lastName" "", dictGetD sampleRequest.form "additionalName" "",
         dictGetD sampleRequest.form "studentType" "", dictGetD sampleRequest.form "degreeLevel" "",
         dictGetD sampleRequest.form "gender" "", dictGetD sampleRequest.form "birthDate" "",
         dictGetD sampleRequest.form "personalEmail" "", dictGetD sampleRequest.form "notes" "",
         dictGetD links "nationalID" "", dictGetD sampleRequest.form "nationalCountry" "",
         dictGetD links "transcript1" "", dictGetD sampleRequest.form "t1Country" "",
         dictGetD links "transcript2" "", dictGetD sampleRequest.form "t2Country" "",
         dictGetD links "transcript3" "", dictGetD sampleRequest.form "t3Country" "",
         dictGetD links "transcript4" "", dictGetD sampleRequest.form "t4Country" "",
         dictGetD sampleRequest.form "termsConditions" "", emptyWorld.now] ∧
      (mkRow sampleRequest.form links emptyWorld.now).length = 22 ∧
      (∀ k, dictGet sampleRequest.form k = none → dictGetD sampleRequest.form k "" = "") :=
  C6_sheet_row sampleRequest emptyWorld rfl (by decide)

/-! ### C7: links mapping is total over the five slots -/

/-- C7: on success the links mapping binds all five slot keys, in slot
order; a slot absent from the request maps to the empty string, and the
same links feed the appended row. -/
theorem C7_links_complete :
    ∀ (r : Request) (w : World), w.faults = [] → missingList r = [] →
      ∃ links w', handle_submit r w = ((JBody.successLinks links, 200), w') ∧
        links.map Prod.fst = slotKeys ∧
        (∀ k, k ∈ slotKeys → ∃ v, dictGet links k = some v) ∧
        (∀ k, k ∈ slotKeys → fileGet r.files k = none →
          dictGet links k = some "" ∧ dictGetD links k "" = "") ∧
        w'.sheetRows = w.sheetRows ++ [mkRow r.form links w.now] := by
  intro r w hf hm
  obtain ⟨links, w', heq, hrows, hmap, hget⟩ := handle_submit_ok r w hf hm
  refine ⟨links, w', heq, hmap, ?_, ?_, hrows⟩
  · intro k hk
    obtain ⟨v, hv, _⟩ := hget k hk
    exact ⟨v, hv⟩
  · intro k hk habs
    obtain ⟨v, hv, himp⟩ := hget k hk
    have hft : fileTruthy r k = false := by simp [fileTruthy, habs]
    have hv0 := himp hft
    subst hv0
    exact ⟨hv, by simp [dictGetD, hv]⟩

/-- C7 witness: the sample submission leaves transcript2-4 absent; all five
keys are bound and the absent slots map to the empty string. -/
theorem C7_links_complete_witness :
    ∃ links w',
      handle_submit sampleRequest emptyWorld = ((JBody.successLinks links, 200), w') ∧
      links.map Prod.fst = slotKeys ∧
      (∀ k, k ∈ slotKeys → ∃ v, dictGet links k = some v) ∧
      (∀ k, k ∈ slotKeys → fileGet sampleRequest.files k = none →
        dictGet links k = some "" ∧ dictGetD links k "" = "") ∧
      w'.sheetRows = emptyWorld.sheetRows ++
        [mkRow sampleRequest.form links emptyWorld.now] :=
  C7_links_complete sampleRequest emptyWorld rfl (by decide)

/-! ### C10: link cells of the row equal the response links -/

/-- C10: on success the five link cells of the row (0-based indices 10, 12,
14, 16, 18, i.e. positions 11, 13, 15, 17, 19) equal the per-slot values
of the returned links mapping, and the termsConditions cell (index 20) is
the literal string "true". -/
theorem C10_row_links_and_terms :
    ∀ (r : Request) (w : World), w.faults = [] → missingList r = [] →
      ∃ links w', handle_submit r w = ((JBody.successLinks links, 200), w') ∧
        w'.sheetRows = w.sheetRows ++ [mkRow r.form links w.now] ∧
        (mkRow r.form links w.now)[10]? = some (dictGetD links "nationalID" "") ∧
        (mkRow r.form links w.now)[12]? = some (dictGetD links "transcript1" "") ∧
        (mkRow r.form links w.now)[14]? = some (dictGetD links "transcript2" "") ∧
        (mkRow r.form links w.now)[16]? = some (dictGetD links "transcript3" "") ∧
        (mkRow r.form links w.now)[18]? = some (dictGetD links "transcript4" "") ∧
        (mkRow r.form links w.now)[20]? = some "true" := by
  intro r w hf hm
  obtain ⟨links, w', heq, hrows, hmap, hget⟩ := handle_submit_ok r w hf hm
  have hterms := missingList_nil_terms r hm
  refine ⟨links, w', heq, hrows, rfl, rfl, rfl, rfl, rfl, ?_⟩
  simp [mkRow, dictGetD, hterms]

/-- C10 witness: the sample submission's row carries the response links in
cells 11/13/15/17/19 and "true" in the termsConditions cell. -/
theorem C10_row_links_and_terms_witness :
    ∃ links w',
      handle_submit sampleRequest emptyWorld = ((JBody.successLinks links, 200), w') ∧
      w'.sheetRows = emptyWorld.sheetRows ++
        [mkRow sampleRequest.form links emptyWorld.now] ∧
      (mkRow sampleRequest.form links emptyWorld.now)[10]? =
        some (dictGetD links "nationalID" "") ∧
      (mkRow sampleRequest.form links emptyWorld.now)[12]? =
        some (dictGetD links "transcript1" "") ∧
      (mkRow sampleRequest.form links emptyWorld.now)[14]? =
        some (dictGetD links "transcript2" "") ∧
      (mkRow sampleRequest.form links emptyWorld.now)[16]? =
        some (dictGetD links "transcript3" "") ∧
      (mkRow sampleRequest.form links emptyWorld.now)[18]? =
        some (dictGetD links "transcript4" "") ∧
      (mkRow sampleRequest.form links emptyWorld.now)[20]? = some "true" :=
  C10_row_links_and_terms sampleRequest emptyWorld rfl (by decide)

/-! ### C8: the three response shapes -/

/-- C8: every handler result is exactly one of three shapes — success JSON
with status 200, a validation error listing the missing fields with status
400 and an untouched world, or an error message with status 500; and in the
500 case partial side effects are not rolled back: there is a run that
fails with a server error after having created a folder. -/
theorem C8_response_shapes :
    (∀ (r : Request) (w : World),
      (∃ links w', handle_submit r w = ((JBody.successLinks links, 200), w')) ∨
      handle_submit r w =
        ((JBody.errMsg ("Missing required fields: " ++ pyReprList (missingList r)), 400), w) ∨
      (∃ msg w', handle_submit r w = ((JBody.errMsg msg, 500), w'))) ∧
    (∃ (r : Request) (w : World) (msg : String) (w' : World),
      handle_submit r w = ((JBody.errMsg msg, 500), w') ∧ w'.files ≠ w.files) := by
  constructor
  · intro r w
    by_cases hm : missingList r = []
    · unfold handle_submit
      rw [if_pos hm]
      rcases hsvc : get_service w with ⟨e, w₁⟩ | w₁
      · exact Or.inr (Or.inr ⟨e, w₁, by simp only [hsvc]⟩)
      · rcases hres : resolve_folder w₁ (make_folder_name r.form) with ⟨e, w₂⟩ | ⟨fid, w₂⟩
        · exact Or.inr (Or.inr ⟨e, w₂, by simp only [hsvc, hres]⟩)
        · rcases hup : uploadSlots r (make_folder_name r.form) fid slotKeys w₂ with
            ⟨e, w₃⟩ | ⟨links, w₃⟩
          · exact Or.inr (Or.inr ⟨e, w₃, by simp only [hsvc, hres, hup]⟩)
          · rcases hsvc2 : get_service w₃ with ⟨e, w₄⟩ | w₄
            · exact Or.inr (Or.inr ⟨e, w₄, by simp only [hsvc, hres, hup, hsvc2]⟩)
            · rcases happ : sheets_append w₄ (mkRow r.form links w₄.now) with ⟨e, w₅⟩ | ⟨u, w₅⟩
              · exact Or.inr (Or.inr ⟨e, w₅, by simp only [hsvc, hres, hup, hsvc2, happ]⟩)
              · exact Or.inl ⟨links, w₅, by simp only [hsvc, hres, hup, hsvc2, happ]⟩
    · refine Or.inr (Or.inl ?_)
      unfold handle_submit
      rw [if_neg hm]
  · refine ⟨sampleRequest, boomWorld, "boom",
      ⟨[⟨"gid0", "Nelson_Denise_MBA_MSOHQ", BASE_DRIVE_FOLDER_ID, true, false, "", ""⟩],
        [], 1, "T", []⟩, ?_, ?_⟩
    · rfl
    · decide

/-! ### C9: empty-valued required fields count as missing -/

/-- C9: a required field whose form value is present but empty, with no
corresponding file slot, is included in the missing-field list, and the
handler then responds with status 400. -/
theorem C9_empty_field_missing :
    ∀ (r : Request) (k : String), k ∈ requiredFields →
      dictGet r.form k = some "" → fileGet r.files k = none →
      k ∈ missingList r ∧ ∀ w, (handle_submit r w).1.2 = 400 := by
  intro r k hk hform hfile
  have hmem : k ∈ missingList r := by
    have hpred : (!(fieldTruthy r k || fileTruthy r k)) = true := by
      simp [fieldTruthy, fileTruthy, hform, hfile]
    have hfil : k ∈ requiredFields.filter
        (fun k => !(fieldTruthy r k || fileTruthy r k)) :=
      List.mem_filter.mpr ⟨hk, hpred⟩
    unfold missingList
    split
    · exact hfil
    · exact List.mem_append_left _ hfil
  refine ⟨hmem, fun w => ?_⟩
  have hne : missingList r ≠ [] := List.ne_nil_of_mem hmem
  simp [handle_submit, hne]

/-- C9 witness: a concrete submission whose `firstName` is the empty
string and has no files is rejected with `firstName` listed as missing. -/
theorem C9_empty_field_missing_witness :
    "firstName" ∈ missingList ⟨[("firstName", "")], []⟩ ∧
    ∀ w, (handle_submit ⟨[("firstName", "")], []⟩ w).1.2 = 400 :=
  C9_empty_field_missing ⟨[("firstName", "")], []⟩ "firstName" (by decide) rfl rfl

end TUP
